import Mathlib

/-!
Shallow embedding of the note-taking backend in `server.js` (Express +
Mongoose + Google OAuth2 token verification + an AI text-assist proxy).

The document store is modelled as a list of notes plus a counter supplying
fresh store-assigned ids.  JavaScript `undefined` is modelled by `Option`:
a request-body field that may be absent is an `Option String`, and the
Update handler writes the destructured (possibly `undefined`) `title` and
`content` straight into the stored document, exactly as
`Note.findOneAndUpdate(filter, { title, content, updatedAt })` does.
External collaborators (the identity provider's `verifyIdToken` and the
generative-text provider) are oracles passed in as function parameters, so
"the provider is never consulted" is expressed as independence of the
result from the oracle.
-/

namespace NoteApp

/-- A persisted note document.  `title` and `content` are `Option String`
because an update can store the JavaScript `undefined` coming from a
destructured absent body field; `createdAt`/`updatedAt` are abstract
timestamps. -/
structure Note where
  id : Nat
  userId : String
  title : Option String
  content : Option String
  createdAt : Nat
  updatedAt : Nat
  deriving DecidableEq, Repr

/-- The document store: the collection of notes in natural (insertion)
order, plus the counter from which store-assigned ids are drawn. -/
structure Store where
  notes : List Note
  nextId : Nat
  deriving DecidableEq, Repr

/-- Store well-formedness: note ids are pairwise distinct and below the
fresh-id counter (true of every store reachable from the empty one). -/
def Store.WF (s : Store) : Prop :=
  s.notes.Pairwise (fun a b => a.id ≠ b.id) ∧ ∀ n ∈ s.notes, n.id < s.nextId

/-! ### Authentication middleware (`authenticateToken`, server.js:49-73) -/

/-- JavaScript `String.prototype.split` on a single-character separator:
`"a b".split(' ') = ["a","b"]`, `"".split(' ') = [""]`. -/
def jsSplitChar (c : Char) : List Char → List (List Char)
  | [] => [[]]
  | x :: xs =>
    if x = c then [] :: jsSplitChar c xs
    else
      match jsSplitChar c xs with
      | [] => [[x]]
      | h :: t => (x :: h) :: t

/-- `authHeader.split(' ')` from server.js:51, lifted to `String`. -/
def jsSplitSpace (s : String) : List String :=
  (jsSplitChar ' ' s.data).map List.asString

/-- `const token = authHeader && authHeader.split(' ')[1]` followed by the
falsy test `if (!token)` (server.js:51-53): the token is the second
space-separated segment of the Authorization header, and an absent or
empty segment counts as no token. -/
def extractToken (authHeader : Option String) : Option String :=
  match authHeader with
  | none => none
  | some h =>
    match (jsSplitSpace h).get? 1 with
    | none => none
    | some t => if t = "" then none else some t

/-- Outcome of the authentication middleware. -/
inductive AuthResult where
  | unauthorized
  | forbidden
  | ok (userId : String)
  deriving DecidableEq, Repr

/-- `authenticateToken` (server.js:49-73).  `verify` is the identity
provider's `client.verifyIdToken`: it returns the verified subject
identifier (`payload['sub']`) or fails. -/
def authenticateToken (verify : String → Option String)
    (authHeader : Option String) : AuthResult :=
  match extractToken authHeader with
  | none => .unauthorized
  | some t =>
    match verify t with
    | none => .forbidden
    | some uid => .ok uid

/-! ### Note routes (server.js:77-163) -/

/-- A request to one of the five note routes.  A create/update body field
that may be absent is an `Option String`; the create body also carries the
caller-supplied `userId` field, which the handler never reads. -/
structure CreateBody where
  title : Option String
  content : Option String
  userId : Option String
  deriving DecidableEq, Repr

structure UpdateBody where
  title : Option String
  content : Option String
  deriving DecidableEq, Repr

inductive Request where
  | listNotes
  | getNote (id : Nat)
  | createNote (body : CreateBody)
  | updateNote (id : Nat) (body : UpdateBody)
  | deleteNote (id : Nat)
  deriving DecidableEq, Repr

/-- A JSON response body. -/
inductive ResponseBody where
  | note (n : Note)
  | notes (l : List Note)
  | err (msg : String)
  | empty
  deriving DecidableEq, Repr

/-- The MongoDB filter `{ _id: id, userId: uid }` used by the get-one,
update and delete handlers. -/
def matchNote (i : Nat) (uid : String) (n : Note) : Bool :=
  n.id == i && n.userId == uid

/-- `Note.findOne({ _id, userId })` (server.js:91-94). -/
def findNote (s : Store) (i : Nat) (uid : String) : Option Note :=
  s.notes.find? (matchNote i uid)

/-- Descending `updatedAt` order, `.sort({ updatedAt: -1 })`
(server.js:80). -/
def updBefore (a b : Note) : Prop := b.updatedAt ≤ a.updatedAt

instance : DecidableRel updBefore := fun a b => Nat.decLe b.updatedAt a.updatedAt

instance : IsTotal Note updBefore := ⟨fun a b => Nat.le_total b.updatedAt a.updatedAt⟩

instance : IsTrans Note updBefore := ⟨fun _ _ _ h1 h2 => Nat.le_trans h2 h1⟩

/-- `Note.find({ userId }).sort({ updatedAt: -1 })` (server.js:79-80). -/
def listNotes (s : Store) (uid : String) : List Note :=
  List.insertionSort updBefore (s.notes.filter (fun n => n.userId == uid))

/-- JavaScript `x || d` on a string-or-undefined value: the default is
taken when the field is absent or the empty string (both falsy). -/
def jsOrDefault (v : Option String) (d : String) : String :=
  match v with
  | none => d
  | some s => if s = "" then d else s

/-- The document built by the create handler (server.js:110-114) with the
schema defaults of `noteSchema` (server.js:34-40) already applied by the
`||` defaults in the handler; `createdAt`/`updatedAt` get `Date.now`. -/
def mkNote (i : Nat) (uid : String) (b : CreateBody) (now : Nat) : Note :=
  { id := i
    userId := uid
    title := some (jsOrDefault b.title "Untitled Note")
    content := some (jsOrDefault b.content "")
    createdAt := now
    updatedAt := now }

/-- `findOneAndUpdate` over the collection in natural order: rewrite the
first document matching `p` with `f` and return it (`{ new: true }`), or
return the collection untouched. -/
def updateFirst (p : Note → Bool) (f : Note → Note) :
    List Note → List Note × Option Note
  | [] => ([], none)
  | n :: rest =>
    if p n then (f n :: rest, some (f n))
    else
      match updateFirst p f rest with
      | (rest', r) => (n :: rest', r)

/-- `findOneAndDelete` over the collection in natural order: remove the
first document matching `p` and return it. -/
def deleteFirst (p : Note → Bool) : List Note → List Note × Option Note
  | [] => ([], none)
  | n :: rest =>
    if p n then (rest, some n)
    else
      match deleteFirst p rest with
      | (rest', r) => (n :: rest', r)

/-- The update document `{ title, content, updatedAt: Date.now() }` of
server.js:131-135: the destructured body fields are written as-is, so an
absent field stores `undefined`. -/
def applyUpdate (b : UpdateBody) (now : Nat) (n : Note) : Note :=
  { n with title := b.title, content := b.content, updatedAt := now }

/-- The five note-route handlers (server.js:77-163), run after the
middleware has attached the verified identity `uid`; `now` is `Date.now`.
Returns the store after the operation, the HTTP status and the response
body. -/
def handleRequest (s : Store) (uid : String) (now : Nat) :
    Request → Store × Nat × ResponseBody
  | .listNotes => (s, 200, .notes (listNotes s uid))
  | .getNote i =>
    match findNote s i uid with
    | none => (s, 404, .err "Note not found")
    | some n => (s, 200, .note n)
  | .createNote b =>
    let n := mkNote s.nextId uid b now
    ({ notes := s.notes ++ [n], nextId := s.nextId + 1 }, 201, .note n)
  | .updateNote i b =>
    match updateFirst (matchNote i uid) (applyUpdate b now) s.notes with
    | (notes', none) => ({ s with notes := notes' }, 404, .err "Note not found")
    | (notes', some n) => ({ s with notes := notes' }, 200, .note n)
  | .deleteNote i =>
    match deleteFirst (matchNote i uid) s.notes with
    | (notes', none) => ({ s with notes := notes' }, 404, .err "Note not found")
    | (notes', some _) => ({ s with notes := notes' }, 204, .empty)

/-- A full note-route round trip: the authentication middleware followed
by the handler.  A middleware failure leaves the store untouched and
produces the middleware's error response. -/
def serve (verify : String → Option String) (authHeader : Option String)
    (s : Store) (now : Nat) (r : Request) : Store × Nat × ResponseBody :=
  match authenticateToken verify authHeader with
  | .unauthorized => (s, 401, .err "Unauthorized")
  | .forbidden => (s, 403, .err "Invalid token")
  | .ok uid => handleRequest s uid now r

/-! ### Text-assist endpoints (server.js:166-195; variants in the
companion source file: the Gemini improve/ideas handlers and the
Hugging Face ideas handler that reads `topic`). -/

/-- The three text-assist operations. -/
inductive AssistOp where
  | summarize
  | improve
  | ideas
  deriving DecidableEq, Repr

/-- An assist response: the provider's text under the endpoint's response
key (`summary` for the OpenAI summarize route, `result` for the Gemini
routes), or an error envelope. -/
inductive AssistResponse where
  | summary (s : String)
  | result (s : String)
  | err (msg : String)
  deriving DecidableEq, Repr

/-- JavaScript `String.prototype.trim`, modelled byte-faithfully enough
for whitespace-only inputs: strip leading and trailing whitespace. -/
def jsTrim (s : String) : String :=
  List.asString (((s.data.dropWhile Char.isWhitespace).reverse.dropWhile
    Char.isWhitespace).reverse)

/-- The assist handlers.  `provider` is the generative-text oracle
(prompt in, text out, `none` a provider-side failure).  `summarize`
follows server.js:166-195 (`!text?.trim()` guard, `{ summary }` key);
`improve` and `ideas` follow the companion Gemini variant (`!text` guard,
`{ result }` key). -/
def assistHandler (provider : String → Option String) (op : AssistOp)
    (text : Option String) : Nat × AssistResponse :=
  match op with
  | .summarize =>
    match text with
    | none => (400, .err "Text is required")
    | some t =>
      if jsTrim t = "" then (400, .err "Text is required")
      else
        match provider ("Summarize this in 3-5 concise bullet points:\n\n" ++ t) with
        | none => (500, .err "Failed to summarize text")
        | some out => (200, .summary out)
  | .improve =>
    match text with
    | none => (400, .err "No text provided")
    | some t =>
      if t = "" then (400, .err "No text provided")
      else
        match provider ("Improve the following text by making it more clear, concise, and professional:\n\n" ++ t) with
        | none => (500, .err "Failed to improve text")
        | some out => (200, .result out)
  | .ideas =>
    match text with
    | none => (400, .err "No text provided")
    | some t =>
      if t = "" then (400, .err "No text provided")
      else
        match provider ("Based on the following text, suggest some related ideas, questions to explore, or points to consider:\n\n" ++ t) with
        | none => (500, .err "Failed to generate ideas")
        | some out => (200, .result out)

/-! ### Helper lemmas -/

theorem matchNote_iff {i : Nat} {uid : String} {n : Note} :
    matchNote i uid n = true ↔ n.id = i ∧ n.userId = uid := by
  simp [matchNote]

/-- In a list of notes with pairwise-distinct ids, a shared id forces
equality. -/
theorem pairwise_id_unique {l : List Note}
    (h : l.Pairwise (fun a b => a.id ≠ b.id)) {m n : Note}
    (hm : m ∈ l) (hn : n ∈ l) (hid : m.id = n.id) : m = n := by
  induction l with
  | nil => cases hm
  | cons x xs ih =>
    rcases List.pairwise_cons.mp h with ⟨hx, hxs⟩
    rcases List.mem_cons.mp hm with hm1 | hm2 <;>
      rcases List.mem_cons.mp hn with hn1 | hn2
    · exact hm1.trans hn1.symm
    · exact absurd hid (hm1 ▸ hx n hn2)
    · exact absurd hid.symm (hn1 ▸ hx m hm2)
    · exact ih hxs hm2 hn2

theorem updateFirst_nomatch {p : Note → Bool} {f : Note → Note}
    {l : List Note} (h : ∀ x ∈ l, p x = false) :
    updateFirst p f l = (l, none) := by
  induction l with
  | nil => rfl
  | cons x xs ih =>
    have hx := h x (List.mem_cons_self x xs)
    have ih2 := ih (fun y hy => h y (List.mem_cons_of_mem x hy))
    simp [updateFirst, hx, ih2]

theorem deleteFirst_nomatch {p : Note → Bool} {l : List Note}
    (h : ∀ x ∈ l, p x = false) :
    deleteFirst p l = (l, none) := by
  induction l with
  | nil => rfl
  | cons x xs ih =>
    have hx := h x (List.mem_cons_self x xs)
    have ih2 := ih (fun y hy => h y (List.mem_cons_of_mem x hy))
    simp [deleteFirst, hx, ih2]

/-- When every match of `p` in `l` is the note `n` itself and `n` does
occur and match, `updateFirst` rewrites exactly one occurrence of `n`. -/
theorem updateFirst_unique {p : Note → Bool} {f : Note → Note} {n : Note} :
    ∀ {l : List Note}, (∀ x ∈ l, p x = true → x = n) → n ∈ l → p n = true →
    ∃ l1 l2, l = l1 ++ n :: l2 ∧ (∀ x ∈ l1, p x = false) ∧
      updateFirst p f l = (l1 ++ f n :: l2, some (f n))
  | [], _, hn, _ => absurd hn (List.not_mem_nil n)
  | x :: xs, hu, hn, hp => by
    by_cases hx : p x = true
    · have hxn : x = n := hu x (List.mem_cons_self x xs) hx
      subst hxn
      refine ⟨[], xs, by simp, by simp, ?_⟩
      simp [updateFirst, hx]
    · have hxf : p x = false := Bool.eq_false_iff.mpr hx
      have hnxs : n ∈ xs := by
        rcases List.mem_cons.mp hn with h1 | h2
        · exact absurd (h1 ▸ hp) (h1 ▸ hx)
        · exact h2
      obtain ⟨l1, l2, heq, hl1, hrec⟩ :=
        updateFirst_unique (f := f) (fun y hy => hu y (List.mem_cons_of_mem x hy)) hnxs hp
      refine ⟨x :: l1, l2, by simp [heq], ?_, ?_⟩
      · intro y hy
        rcases List.mem_cons.mp hy with h1 | h2
        · exact h1 ▸ hxf
        · exact hl1 y h2
      · simp [updateFirst, hxf, hrec]

/-- When every match of `p` in `l` is the note `n` itself and `n` does
occur and match, `deleteFirst` removes exactly one occurrence of `n`. -/
theorem deleteFirst_unique {p : Note → Bool} {n : Note} :
    ∀ {l : List Note}, (∀ x ∈ l, p x = true → x = n) → n ∈ l → p n = true →
    ∃ l1 l2, l = l1 ++ n :: l2 ∧ (∀ x ∈ l1, p x = false) ∧
      deleteFirst p l = (l1 ++ l2, some n)
  | [], _, hn, _ => absurd hn (List.not_mem_nil n)
  | x :: xs, hu, hn, hp => by
    by_cases hx : p x = true
    · have hxn : x = n := hu x (List.mem_cons_self x xs) hx
      subst hxn
      refine ⟨[], xs, by simp, by simp, ?_⟩
      simp [deleteFirst, hx]
    · have hxf : p x = false := Bool.eq_false_iff.mpr hx
      have hnxs : n ∈ xs := by
        rcases List.mem_cons.mp hn with h1 | h2
        · exact absurd (h1 ▸ hp) (h1 ▸ hx)
        · exact h2
      obtain ⟨l1, l2, heq, hl1, hrec⟩ :=
        deleteFirst_unique (fun y hy => hu y (List.mem_cons_of_mem x hy)) hnxs hp
      refine ⟨x :: l1, l2, by simp [heq], ?_, ?_⟩
      · intro y hy
        rcases List.mem_cons.mp hy with h1 | h2
        · exact h1 ▸ hxf
        · exact hl1 y h2
      · simp [deleteFirst, hxf, hrec]

/-- A store with pairwise-distinct ids in which `n` is owned by `A` holds
no note matching `n.id` together with a different caller `B`. -/
theorem findNote_other_user {s : Store} {n : Note} {A B : String}
    (hWF : s.notes.Pairwise (fun a b => a.id ≠ b.id))
    (hmem : n ∈ s.notes) (hown : n.userId = A) (hne : A ≠ B) :
    ∀ x ∈ s.notes, matchNote n.id B x = false := by
  intro x hx
  rw [Bool.eq_false_iff]
  intro hmatch
  rcases matchNote_iff.mp hmatch with ⟨hid, huser⟩
  have hxn : x = n := pairwise_id_unique hWF hx hmem hid
  exact hne (hown ▸ hxn ▸ huser ▸ rfl)

theorem find?_append_nomatch {p : Note → Bool} {l1 l2 : List Note}
    (h : ∀ x ∈ l1, p x = false) :
    (l1 ++ l2).find? p = l2.find? p := by
  induction l1 with
  | nil => rfl
  | cons x xs ih =>
    have hx := h x (List.mem_cons_self x xs)
    have ih2 := ih (fun y hy => h y (List.mem_cons_of_mem x hy))
    simp [List.find?, hx, ih2]

/-- Splitting a string with no occurrence of the separator yields the
whole string as the only segment. -/
theorem jsSplitChar_no_sep {c : Char} {l : List Char}
    (h : ∀ x ∈ l, x ≠ c) : jsSplitChar c l = [l] := by
  induction l with
  | nil => rfl
  | cons x xs ih =>
    have hx := h x (List.mem_cons_self x xs)
    have ih2 := ih (fun y hy => h y (List.mem_cons_of_mem x hy))
    simp [jsSplitChar, hx, ih2]

/-! ### The claims -/

/-- Claim C1, cross-user isolation: in a well-formed store, a note owned
by identity `A` is invisible to any other authenticated identity `B`: the
get-one, update and delete routes invoked by `B` with that note's id all
answer 404 `Note not found` and leave the store untouched, exactly the
response produced on any store holding no note with that id at all, so
`B` cannot detect the note's existence. -/
theorem cross_user_isolation (verify : String → Option String)
    (hdr : Option String) (s : Store) (A B : String) (n : Note) (now : Nat)
    (body : UpdateBody)
    (hauth : authenticateToken verify hdr = .ok B)
    (hWF : s.notes.Pairwise (fun a b => a.id ≠ b.id))
    (hmem : n ∈ s.notes) (hown : n.userId = A) (hne : A ≠ B) :
    serve verify hdr s now (.getNote n.id) = (s, 404, .err "Note not found") ∧
    serve verify hdr s now (.updateNote n.id body) = (s, 404, .err "Note not found") ∧
    serve verify hdr s now (.deleteNote n.id) = (s, 404, .err "Note not found") ∧
    ∀ s0 : Store, (∀ m ∈ s0.notes, m.id ≠ n.id) →
      (serve verify hdr s0 now (.getNote n.id)).2 =
        (serve verify hdr s now (.getNote n.id)).2 ∧
      (serve verify hdr s0 now (.updateNote n.id body)).2 =
        (serve verify hdr s now (.updateNote n.id body)).2 ∧
      (serve verify hdr s0 now (.deleteNote n.id)).2 =
        (serve verify hdr s now (.deleteNote n.id)).2 := by
  have hno : ∀ x ∈ s.notes, matchNote n.id B x = false :=
    findNote_other_user hWF hmem hown hne
  have hfind : findNote s n.id B = none :=
    List.find?_eq_none.mpr (fun x hx => by simp [hno x hx])
  have hget : serve verify hdr s now (.getNote n.id) =
      (s, 404, .err "Note not found") := by
    simp [serve, hauth, handleRequest, hfind]
  have hupd : serve verify hdr s now (.updateNote n.id body) =
      (s, 404, .err "Note not found") := by
    simp [serve, hauth, handleRequest, updateFirst_nomatch hno]
  have hdel : serve verify hdr s now (.deleteNote n.id) =
      (s, 404, .err "Note not found") := by
    simp [serve, hauth, handleRequest, deleteFirst_nomatch hno]
  refine ⟨hget, hupd, hdel, fun s0 habs => ?_⟩
  have hno0 : ∀ x ∈ s0.notes, matchNote n.id B x = false := by
    intro x hx
    rw [Bool.eq_false_iff]
    intro hm
    exact habs x hx (matchNote_iff.mp hm).1
  have hfind0 : findNote s0 n.id B = none :=
    List.find?_eq_none.mpr (fun x hx => by simp [hno0 x hx])
  refine ⟨?_, ?_, ?_⟩
  · rw [hget]; simp [serve, hauth, handleRequest, hfind0]
  · rw [hupd]; simp [serve, hauth, handleRequest, updateFirst_nomatch hno0]
  · rw [hdel]; simp [serve, hauth, handleRequest, deleteFirst_nomatch hno0]

/-- Claim C2, update overwrites with absent fields: updating an owned
note in a well-formed store succeeds with 200, stores the request body's
`title` and `content` verbatim — an absent (`none`) field overwrites the
stored field, it is not merged — refreshes `updatedAt` to the request
time, and returns exactly the updated document, which is in the resulting
store. -/
theorem update_overwrites_absent_fields (verify : String → Option String)
    (hdr : Option String) (s : Store) (uid : String) (n : Note)
    (body : UpdateBody) (now : Nat)
    (hauth : authenticateToken verify hdr = .ok uid)
    (hWF : s.notes.Pairwise (fun a b => a.id ≠ b.id))
    (hmem : n ∈ s.notes) (hown : n.userId = uid) :
    ∃ s2 : Store,
      serve verify hdr s now (.updateNote n.id body) =
        (s2, 200,
         .note { n with title := body.title, content := body.content, updatedAt := now }) ∧
      { n with title := body.title, content := body.content, updatedAt := now } ∈ s2.notes := by
  have hp : matchNote n.id uid n = true := matchNote_iff.mpr ⟨rfl, hown⟩
  have hu : ∀ x ∈ s.notes, matchNote n.id uid x = true → x = n := by
    intro x hx hm
    exact pairwise_id_unique hWF hx hmem (matchNote_iff.mp hm).1
  obtain ⟨l1, l2, _, _, hrun⟩ :=
    updateFirst_unique (f := applyUpdate body now) hu hmem hp
  refine ⟨{ s with notes := l1 ++ applyUpdate body now n :: l2 }, ?_, ?_⟩
  · simp [serve, hauth, handleRequest, hrun, applyUpdate]
  · exact List.mem_append_right l1 (List.mem_cons_self _ l2)

/-- Claim C3, authentication error taxonomy: on every note route, a
missing Authorization header, or a header from which no token can be
extracted, yields 401 `Unauthorized` for every possible identity-provider
oracle (so no verification is attempted), while an extracted token that
the identity provider rejects yields 403 `Invalid token`; in both cases
the store is untouched. -/
theorem auth_error_taxonomy (hdr : Option String) (s : Store) (now : Nat)
    (r : Request) :
    (∀ verify : String → Option String,
      serve verify none s now r = (s, 401, .err "Unauthorized")) ∧
    (extractToken hdr = none →
      ∀ verify : String → Option String,
        serve verify hdr s now r = (s, 401, .err "Unauthorized")) ∧
    (∀ (t : String) (verify : String → Option String),
      extractToken hdr = some t → verify t = none →
      serve verify hdr s now r = (s, 403, .err "Invalid token")) := by
  refine ⟨fun verify => rfl, fun hnone verify => ?_, fun t verify ht hv => ?_⟩
  · simp [serve, authenticateToken, hnone]
  · simp [serve, authenticateToken, ht, hv]

/-- Claim C4, list scoping and ordering: the list route always answers
200 with the caller's notes — membership in the result is exactly
ownership by the verified identity, so an empty result is a successful
200 response — the result is ordered by `updatedAt` descending, and when
the caller's notes have pairwise-distinct `updatedAt` values the order is
strictly descending. -/
theorem list_scoped_sorted (verify : String → Option String)
    (hdr : Option String) (s : Store) (uid : String) (now : Nat)
    (hauth : authenticateToken verify hdr = .ok uid) :
    serve verify hdr s now .listNotes = (s, 200, .notes (listNotes s uid)) ∧
    (∀ n : Note, n ∈ listNotes s uid ↔ n ∈ s.notes ∧ n.userId = uid) ∧
    (listNotes s uid).Pairwise (fun a b => b.updatedAt ≤ a.updatedAt) ∧
    ((s.notes.filter (fun n => n.userId == uid)).Pairwise
        (fun a b => a.updatedAt ≠ b.updatedAt) →
      (listNotes s uid).Pairwise (fun a b => b.updatedAt < a.updatedAt)) := by
  have hsorted : (listNotes s uid).Pairwise updBefore :=
    List.sorted_insertionSort updBefore (s.notes.filter (fun n => n.userId == uid))
  refine ⟨by simp [serve, hauth, handleRequest], ?_, hsorted, ?_⟩
  · intro n
    rw [listNotes, List.mem_insertionSort, List.mem_filter]
    simp
  · intro hd
    have hperm := List.perm_insertionSort updBefore
      (s.notes.filter (fun n => n.userId == uid))
    have hd2 : (listNotes s uid).Pairwise
        (fun a b => a.updatedAt ≠ b.updatedAt) := by
      rw [listNotes]
      exact (hperm.pairwise_iff (fun hab => Ne.symm hab)).mpr hd
    exact (hsorted.and hd2).imp
      (fun hab => Nat.lt_of_le_of_ne hab.1 (fun he => hab.2 he.symm))

/-- Claim C5, create defaults: a create request with a valid token and an
empty body succeeds with 201, and the created note carries the default
title `Untitled Note`, empty content, the verified identity as owner and
the creation time as both `createdAt` and `updatedAt`; retrieving it
immediately afterwards (at any later time) returns 200 with the identical
document. -/
theorem create_defaults (verify : String → Option String)
    (hdr : Option String) (s : Store) (uid : String) (now now2 : Nat)
    (hauth : authenticateToken verify hdr = .ok uid)
    (hWF : ∀ m ∈ s.notes, m.id < s.nextId) :
    ∃ (s2 : Store) (n : Note),
      serve verify hdr s now (.createNote ⟨none, none, none⟩) = (s2, 201, .note n) ∧
      n.title = some "Untitled Note" ∧ n.content = some "" ∧ n.userId = uid ∧
      n.createdAt = now ∧ n.updatedAt = now ∧
      serve verify hdr s2 now2 (.getNote n.id) = (s2, 200, .note n) := by
  refine ⟨{ notes := s.notes ++ [mkNote s.nextId uid ⟨none, none, none⟩ now],
            nextId := s.nextId + 1 },
          mkNote s.nextId uid ⟨none, none, none⟩ now,
          by simp [serve, hauth, handleRequest], rfl, rfl, rfl, rfl, rfl, ?_⟩
  have hno : ∀ x ∈ s.notes,
      matchNote (mkNote s.nextId uid ⟨none, none, none⟩ now).id uid x = false := by
    intro x hx
    rw [Bool.eq_false_iff]
    intro hm
    exact absurd (matchNote_iff.mp hm).1
      (Nat.ne_of_lt (hWF x hx))
  have hfind : List.find?
      (matchNote (mkNote s.nextId uid ⟨none, none, none⟩ now).id uid)
      (s.notes ++ [mkNote s.nextId uid ⟨none, none, none⟩ now]) =
      some (mkNote s.nextId uid ⟨none, none, none⟩ now) := by
    rw [find?_append_nomatch hno]
    simp [List.find?, matchNote, mkNote]
  simp [serve, hauth, handleRequest, findNote, hfind]

/-- Claim C6, caller-supplied `userId` is ignored on create: two create
requests by the same verified identity whose bodies agree on `title` and
`content` but may differ arbitrarily in a body-supplied `userId` field
produce identical results, and the owner of the created note is always
the verified identity. -/
theorem create_ignores_body_userId (verify : String → Option String)
    (hdr : Option String) (s : Store) (uid : String) (now : Nat)
    (b1 b2 : CreateBody)
    (hauth : authenticateToken verify hdr = .ok uid)
    (ht : b1.title = b2.title) (hc : b1.content = b2.content) :
    serve verify hdr s now (.createNote b1) =
      serve verify hdr s now (.createNote b2) ∧
    serve verify hdr s now (.createNote b1) =
      ({ notes := s.notes ++ [mkNote s.nextId uid b1 now], nextId := s.nextId + 1 },
       201, .note (mkNote s.nextId uid b1 now)) ∧
    (mkNote s.nextId uid b1 now).userId = uid := by
  refine ⟨?_, by simp [serve, hauth, handleRequest], rfl⟩
  simp [serve, hauth, handleRequest, mkNote, ht, hc]

/-- Claim C7, update failure atomicity: when no stored note matches both
the requested id and the caller's verified identity, the update route
answers 404 `Note not found` and returns the store exactly as it was — no
document is created or modified. -/
theorem update_notfound_no_mutation (verify : String → Option String)
    (hdr : Option String) (s : Store) (uid : String) (i : Nat)
    (body : UpdateBody) (now : Nat)
    (hauth : authenticateToken verify hdr = .ok uid)
    (h : ∀ n ∈ s.notes, ¬(n.id = i ∧ n.userId = uid)) :
    serve verify hdr s now (.updateNote i body) = (s, 404, .err "Note not found") := by
  have hno : ∀ x ∈ s.notes, matchNote i uid x = false := by
    intro x hx
    rw [Bool.eq_false_iff]
    intro hm
    exact h x hx (matchNote_iff.mp hm)
  simp [serve, hauth, handleRequest, updateFirst_nomatch hno]

/-- Claim C8, delete idempotence in effect: deleting an owned note in a
well-formed store succeeds with 204 and an empty body, and a second
delete of the same id by the same caller answers 404 `Note not found`
and leaves the store exactly as the first delete left it. -/
theorem delete_idempotent_effect (verify : String → Option String)
    (hdr : Option String) (s : Store) (uid : String) (n : Note)
    (now now2 : Nat)
    (hauth : authenticateToken verify hdr = .ok uid)
    (hWF : s.notes.Pairwise (fun a b => a.id ≠ b.id))
    (hmem : n ∈ s.notes) (hown : n.userId = uid) :
    ∃ s1 : Store,
      serve verify hdr s now (.deleteNote n.id) = (s1, 204, .empty) ∧
      serve verify hdr s1 now2 (.deleteNote n.id) = (s1, 404, .err "Note not found") := by
  have hp : matchNote n.id uid n = true := matchNote_iff.mpr ⟨rfl, hown⟩
  have hu : ∀ x ∈ s.notes, matchNote n.id uid x = true → x = n := by
    intro x hx hm
    exact pairwise_id_unique hWF hx hmem (matchNote_iff.mp hm).1
  obtain ⟨l1, l2, heq, hl1, hrun⟩ := deleteFirst_unique hu hmem hp
  refine ⟨{ s with notes := l1 ++ l2 }, by simp [serve, hauth, handleRequest, hrun], ?_⟩
  have hWF2 : (l1 ++ n :: l2).Pairwise (fun a b => a.id ≠ b.id) := heq ▸ hWF
  have hn_l2 : ∀ x ∈ l2, n.id ≠ x.id :=
    fun x hx => (List.pairwise_cons.mp (List.pairwise_append.mp hWF2).2.1).1 x hx
  have hno : ∀ x ∈ l1 ++ l2, matchNote n.id uid x = false := by
    intro x hx
    rcases List.mem_append.mp hx with h1 | h2
    · exact hl1 x h1
    · rw [Bool.eq_false_iff]
      intro hm
      exact hn_l2 x h2 (matchNote_iff.mp hm).1.symm
  simp [serve, hauth, handleRequest, deleteFirst_nomatch hno]

/-- Claim C9, assist input validation: for each of the three text-assist
operations, a request whose required free-text field is absent or the
empty string is rejected with 400, and the result is the same for every
generative-text provider oracle — the provider is never consulted. -/
theorem assist_rejects_empty (op : AssistOp) (text : Option String)
    (h : text = none ∨ text = some "") :
    (∀ provider : String → Option String,
      (assistHandler provider op text).1 = 400) ∧
    (∀ p1 p2 : String → Option String,
      assistHandler p1 op text = assistHandler p2 op text) := by
  constructor
  · intro provider
    rcases h with h | h <;> subst h <;> cases op <;> rfl
  · intro p1 p2
    rcases h with h | h <;> subst h <;> cases op <;> rfl

/-- Claim C10, token-extraction edge case: a request whose Authorization
header value has no space-separated second segment — in particular any
header value containing no space at all, such as a bare credential sent
without the `Bearer ` prefix or the literal value `Bearer` alone — is
rejected with 401 `Unauthorized` for every possible identity-provider
oracle, so the identity provider is never consulted. -/
theorem bare_token_unauthorized (hA : String) (s : Store) (now : Nat)
    (r : Request)
    (hseg : (jsSplitSpace hA).get? 1 = none ∨ ∀ c ∈ hA.data, c ≠ ' ') :
    ∀ verify : String → Option String,
      serve verify (some hA) s now r = (s, 401, .err "Unauthorized") := by
  intro verify
  have hseg2 : (jsSplitSpace hA).get? 1 = none := by
    rcases hseg with h | h
    · exact h
    · rw [jsSplitSpace, jsSplitChar_no_sep h]
      rfl
  have hseg3 : (jsSplitSpace hA)[1]? = none :=
    (List.get?_eq_getElem? (jsSplitSpace hA) 1) ▸ hseg2
  have hext : extractToken (some hA) = none := by
    simp [extractToken, hseg3]
  simp [serve, authenticateToken, hext]

/-! ### Concrete data for the witnesses -/

/-- A concrete note owned by user `A`. -/
def noteA : Note := ⟨0, "A", some "T", some "C", 1, 1⟩

/-- A concrete one-note store. -/
def storeA : Store := ⟨[noteA], 1⟩

/-- A concrete three-note store with two users and distinct
`updatedAt` values. -/
def storeL : Store :=
  ⟨[⟨0, "A", some "x", some "", 1, 1⟩, ⟨1, "A", some "y", some "", 2, 9⟩,
    ⟨2, "B", some "z", some "", 3, 5⟩], 3⟩

/-- A concrete identity-provider oracle: token `tokA` belongs to user
`A`, token `tokB` to user `B`, everything else is invalid. -/
def verify0 : String → Option String :=
  fun t => if t = "tokA" then some "A" else if t = "tokB" then some "B" else none

/-! ### Witnesses -/

theorem cross_user_isolation_witness :
    serve verify0 (some "Bearer tokB") storeA 5 (.getNote 0) =
      (storeA, 404, .err "Note not found") ∧
    serve verify0 (some "Bearer tokB") storeA 5 (.updateNote 0 ⟨none, some "x"⟩) =
      (storeA, 404, .err "Note not found") ∧
    serve verify0 (some "Bearer tokB") storeA 5 (.deleteNote 0) =
      (storeA, 404, .err "Note not found") := by
  obtain ⟨h1, h2, h3, _⟩ := cross_user_isolation verify0 (some "Bearer tokB")
    storeA "A" "B" noteA 5 ⟨none, some "x"⟩ (by decide) (by decide) (by decide)
    rfl (by decide)
  exact ⟨h1, h2, h3⟩

theorem update_overwrites_absent_fields_witness :
    ∃ s2 : Store,
      serve verify0 (some "Bearer tokA") storeA 9 (.updateNote 0 ⟨none, none⟩) =
        (s2, 200, .note ⟨0, "A", none, none, 1, 9⟩) ∧
      (⟨0, "A", none, none, 1, 9⟩ : Note) ∈ s2.notes :=
  update_overwrites_absent_fields verify0 (some "Bearer tokA") storeA "A" noteA
    ⟨none, none⟩ 9 (by decide) (by decide) (by decide) rfl

theorem auth_error_taxonomy_witness :
    serve verify0 none storeA 5 .listNotes = (storeA, 401, .err "Unauthorized") ∧
    serve verify0 (some "Bearer") storeA 5 .listNotes =
      (storeA, 401, .err "Unauthorized") ∧
    serve verify0 (some "Bearer bad") storeA 5 .listNotes =
      (storeA, 403, .err "Invalid token") := by
  obtain ⟨h1, h2, _⟩ := auth_error_taxonomy (some "Bearer") storeA 5 .listNotes
  obtain ⟨_, _, h3⟩ := auth_error_taxonomy (some "Bearer bad") storeA 5 .listNotes
  exact ⟨h1 verify0, h2 rfl verify0, h3 "bad" verify0 rfl rfl⟩

theorem list_scoped_sorted_witness :
    serve verify0 (some "Bearer tokA") storeL 5 .listNotes =
      (storeL, 200, .notes (listNotes storeL "A")) ∧
    (listNotes storeL "A").Pairwise (fun a b => b.updatedAt < a.updatedAt) := by
  obtain ⟨h1, _, _, h4⟩ :=
    list_scoped_sorted verify0 (some "Bearer tokA") storeL "A" 5 (by decide)
  exact ⟨h1, h4 (by decide)⟩

theorem create_defaults_witness :
    ∃ (s2 : Store) (n : Note),
      serve verify0 (some "Bearer tokA") storeA 7 (.createNote ⟨none, none, none⟩) =
        (s2, 201, .note n) ∧
      n.title = some "Untitled Note" ∧ n.content = some "" ∧ n.userId = "A" ∧
      n.createdAt = 7 ∧ n.updatedAt = 7 ∧
      serve verify0 (some "Bearer tokA") s2 8 (.getNote n.id) = (s2, 200, .note n) :=
  create_defaults verify0 (some "Bearer tokA") storeA "A" 7 8 (by decide) (by decide)

theorem create_ignores_body_userId_witness :
    serve verify0 (some "Bearer tokA") storeA 7
        (.createNote ⟨some "T2", none, some "EVIL"⟩) =
      serve verify0 (some "Bearer tokA") storeA 7
        (.createNote ⟨some "T2", none, none⟩) ∧
    (mkNote storeA.nextId "A" ⟨some "T2", none, some "EVIL"⟩ 7).userId = "A" := by
  obtain ⟨h1, _, h3⟩ := create_ignores_body_userId verify0 (some "Bearer tokA")
    storeA "A" 7 ⟨some "T2", none, some "EVIL"⟩ ⟨some "T2", none, none⟩
    (by decide) rfl rfl
  exact ⟨h1, h3⟩

theorem update_notfound_no_mutation_witness :
    serve verify0 (some "Bearer tokB") storeA 9 (.updateNote 5 ⟨some "t", some "c"⟩) =
      (storeA, 404, .err "Note not found") :=
  update_notfound_no_mutation verify0 (some "Bearer tokB") storeA "B" 5
    ⟨some "t", some "c"⟩ 9 (by decide) (by decide)

theorem delete_idempotent_effect_witness :
    ∃ s1 : Store,
      serve verify0 (some "Bearer tokA") storeA 9 (.deleteNote 0) = (s1, 204, .empty) ∧
      serve verify0 (some "Bearer tokA") s1 10 (.deleteNote 0) =
        (s1, 404, .err "Note not found") :=
  delete_idempotent_effect verify0 (some "Bearer tokA") storeA "A" noteA 9 10
    (by decide) (by decide) (by decide) rfl

theorem assist_rejects_empty_witness :
    (assistHandler (fun _ => some "OUT") .summarize (some "")).1 = 400 ∧
    assistHandler (fun _ => some "OUT") .summarize (some "") =
      assistHandler (fun _ => none) .summarize (some "") ∧
    (assistHandler (fun _ => some "OUT") .ideas none).1 = 400 := by
  obtain ⟨h1, h2⟩ := assist_rejects_empty .summarize (some "") (Or.inr rfl)
  obtain ⟨h3, _⟩ := assist_rejects_empty .ideas none (Or.inl rfl)
  exact ⟨h1 _, h2 _ _, h3 _⟩

theorem bare_token_unauthorized_witness :
    serve verify0 (some "Bearer") storeA 5 .listNotes =
      (storeA, 401, .err "Unauthorized") ∧
    serve verify0 (some "tok123") storeA 5 (.getNote 0) =
      (storeA, 401, .err "Unauthorized") :=
  ⟨bare_token_unauthorized "Bearer" storeA 5 .listNotes (Or.inl rfl) verify0,
   bare_token_unauthorized "tok123" storeA 5 (.getNote 0) (Or.inr (by decide)) verify0⟩

end NoteApp
